import Mathlib

/-!
Verification of the wal-fact-checker research-orchestration component.

The Python sources are shallowly embedded in Lean:

* `chunk_text`, the before/after tool callbacks and the answer aggregation
  of `agents/research/single_question_research_agent.py` and
  `agents/research/research_orchestrator_agent.py` become pure Lean
  functions; the mutable `cache` dict and the session state become
  explicit state passed through the functions.
* Remote services (embedding service, scrape.do, Groq search) are opaque
  in the source and enter the model as function parameters
  (`sim`, `embOf`, `fetch`).
* Python floats that only occur as exact decimal literals (the 0.85
  threshold, the 0.0-1.0 factuality score) are modelled as rationals.
* The agent trees composed from the ADK `SequentialAgent` /
  `ParallelAgent` combinators are modelled by a small tree type together
  with a trace relation: a sequential node concatenates the traces of its
  children, a parallel node interleaves them, and a leaf agent emits any
  finite list of events carrying its author name.
-/

namespace WalFactChecker

/- ### Tool-callback result dictionaries

Both before-tool callbacks in `single_question_research_agent.py` return
either `None` (let the tool run) or a dict
`{"status": ..., "message": ...}` (block the tool and hand this dict to
the LLM). -/

/-- Result dictionary `{"status": ..., "message": ...}` returned by the
before-tool callbacks when they block a tool call. -/
structure ToolError where
  status : String
  message : String
deriving DecidableEq, Repr

/- ### `chunk_text` (single_question_research_agent.py, lines 238-265) -/

/-- Python whitespace test used by `str.strip()`. -/
def pyIsSpace (c : Char) : Bool := c.isWhitespace

/-- Truthiness of `chunk.strip()` in Python: the stripped string is
non-empty iff the original contains a non-whitespace character. -/
def stripTruthy (cs : List Char) : Bool := cs.any (fun c => !pyIsSpace c)

/-- The `while start < len(text)` loop of `chunk_text`.  The loop advances
`start` by `chunk_size - overlap`; the claim under verification restricts
to `overlap < chunk_size`, where this stride is `stepPred + 1` for
`stepPred = chunk_size - overlap - 1` (for `overlap >= chunk_size` the
Python loop would not terminate, and this embedding is not used there). -/
def chunkLoop (text : List Char) (size stepPred : Nat) (start : Nat) :
    List (List Char) :=
  if h : start < text.length then
    let chunk := (text.drop start).take size
    let rest := chunkLoop text size stepPred (start + (stepPred + 1))
    if stripTruthy chunk then chunk :: rest else rest
  else
    []
termination_by text.length - start
decreasing_by omega

/-- `chunk_text(text, chunk_size, overlap)`: empty text yields `[]`, text
no longer than `chunk_size` yields `[text]`, otherwise the overlapping
chunk loop runs. -/
def chunk_text (text : List Char) (chunkSize overlap : Nat) :
    List (List Char) :=
  if text.length = 0 ∨ text.length ≤ chunkSize then
    if text.length = 0 then [] else [text]
  else
    chunkLoop text chunkSize (chunkSize - overlap - 1) 0

/-- Number of loop iterations of `chunk_text` on remaining length `len`
with stride `step`: the count of starts `0, step, 2*step, ...` that are
`< len`, i.e. `ceil(len / step)`. -/
def numStarts (len step : Nat) : Nat := (len + step - 1) / step

theorem numStarts_zero (step : Nat) : numStarts 0 step = 0 := by
  unfold numStarts
  cases step with
  | zero => simp
  | succ s => simp [Nat.div_eq_of_lt]

theorem numStarts_succ_step (len sp : Nat) (h : 0 < len) :
    numStarts len (sp + 1) = numStarts (len - (sp + 1)) (sp + 1) + 1 := by
  unfold numStarts
  rcases Nat.lt_or_ge len (sp + 2) with hlt | hge
  · have h1 : len - (sp + 1) = 0 := by omega
    rw [h1]
    have h2 : (0 + (sp + 1) - 1) / (sp + 1) = 0 := by
      apply Nat.div_eq_of_lt; omega
    rw [h2]
    apply Nat.div_eq_of_lt_le <;> omega
  · have h1 : len + (sp + 1) - 1 = (len - (sp + 1) + (sp + 1) - 1) + (sp + 1) := by
      omega
    rw [h1, Nat.add_div_right _ (Nat.succ_pos sp)]

/-- The chunk loop produces exactly the slices of `text` taken at the
start offsets `start, start + step, start + 2*step, ...` that lie below
`text.length`, filtered to the chunks containing a non-whitespace
character. -/
theorem chunkLoop_eq (text : List Char) (size stepPred start : Nat) :
    chunkLoop text size stepPred start =
      ((List.range' start (numStarts (text.length - start) (stepPred + 1))
          (stepPred + 1)).map
        (fun s => (text.drop s).take size)).filter stripTruthy := by
  rw [chunkLoop]
  by_cases h : start < text.length
  · simp only [h, dif_pos]
    have hn : numStarts (text.length - start) (stepPred + 1) =
        numStarts (text.length - (start + (stepPred + 1))) (stepPred + 1) + 1 := by
      have := numStarts_succ_step (text.length - start) stepPred (by omega)
      have heq : text.length - start - (stepPred + 1) =
          text.length - (start + (stepPred + 1)) := by omega
      rw [heq] at this
      exact this
    rw [hn, List.range'_succ, List.map_cons, List.filter_cons]
    rw [chunkLoop_eq text size stepPred (start + (stepPred + 1))]
  · have h0 : text.length - start = 0 := by omega
    simp [dif_neg h, h0, numStarts_zero]
termination_by text.length - start
decreasing_by omega

theorem chunk_mem_length_le (text : List Char) (size stepPred start : Nat)
    (c : List Char) (hc : c ∈ chunkLoop text size stepPred start) :
    c.length ≤ size := by
  rw [chunkLoop_eq] at hc
  rcases List.mem_filter.mp hc with ⟨hm, _⟩
  rcases List.mem_map.mp hm with ⟨s, _, rfl⟩
  calc ((text.drop s).take size).length ≤ size := by
        rw [List.length_take]; omega

/-- C8: for `overlap < chunk_size`, `chunk_text` returns `[]` on empty
text, `[text]` when the text fits in one chunk, and otherwise exactly the
slices of length at most `chunk_size` taken at start offsets
`0, step, 2*step, ...` with `step = chunk_size - overlap`, keeping a chunk
iff it contains a non-whitespace character; every chunk has length at most
`chunk_size`. -/
theorem chunk_text_correct (text : List Char) (chunkSize overlap : Nat)
    (hov : overlap < chunkSize) :
    (text = [] → chunk_text text chunkSize overlap = []) ∧
    (text ≠ [] → text.length ≤ chunkSize →
      chunk_text text chunkSize overlap = [text]) ∧
    (chunkSize < text.length →
      chunk_text text chunkSize overlap =
        ((List.range' 0 (numStarts text.length (chunkSize - overlap))
            (chunkSize - overlap)).map
          (fun s => (text.drop s).take chunkSize)).filter stripTruthy) ∧
    (∀ c ∈ chunk_text text chunkSize overlap, c.length ≤ chunkSize) := by
  have hstep : chunkSize - overlap - 1 + 1 = chunkSize - overlap := by omega
  refine ⟨fun he => ?_, fun hne hle => ?_, fun hgt => ?_, fun c hc => ?_⟩
  · simp [chunk_text, he]
  · have : text.length ≠ 0 := by
      have := List.length_pos.mpr hne
      omega
    simp [chunk_text, hle, this]
  · have h1 : ¬ (text.length = 0 ∨ text.length ≤ chunkSize) := by omega
    rw [chunk_text, if_neg h1, chunkLoop_eq, hstep]
    simp
  · rw [chunk_text] at hc
    split at hc
    · split at hc
      · simp at hc
      · rename_i h1 h2
        rcases List.mem_singleton.mp hc with rfl
        omega
    · exact chunk_mem_length_le _ _ _ _ _ hc

/-- Witness for C8 at `text = "abcdef"`, `chunk_size = 3`, `overlap = 1`:
the chunks are the slices at offsets 0, 2, 4. -/
theorem chunk_text_correct_witness :
    (1 : Nat) < 3 ∧
      chunk_text ['a', 'b', 'c', 'd', 'e', 'f'] 3 1 =
        ((List.range' 0 (numStarts 6 (3 - 1)) (3 - 1)).map
          (fun s => ((['a', 'b', 'c', 'd', 'e', 'f'] : List Char).drop
            s).take 3)).filter stripTruthy :=
  ⟨by decide,
    (chunk_text_correct _ 3 1 (by decide)).2.2.1 (by decide)⟩

/- ### Answer aggregation
(`research_orchestrator_agent.py`, `_AggregateAnswersAgent._run_async_impl`)

The agent iterates over the questions with `enumerate(questions, 1)`,
reads `ctx.session.state.get(f"research_answer_{i}")`, skips (after
logging) the questions whose key is absent and collects
`{"question": q, "answer": ans}` records in order.  The session state is
embedded as a partial map from keys to answer values. -/

/-- Session-state key `research_answer_{i}` written by the `i`-th research
branch and read back by the aggregator. -/
def answerKey (i : Nat) : String := "research_answer_" ++ toString i

/-- Loop body of `_AggregateAnswersAgent._run_async_impl`: `i` is the
1-based index carried by `enumerate(questions, 1)`. -/
def aggregateAnswersAux {α : Type} (state : String → Option α) :
    Nat → List String → List (String × α)
  | _, [] => []
  | i, q :: rest =>
    match state (answerKey i) with
    | none => aggregateAnswersAux state (i + 1) rest
    | some a => (q, a) :: aggregateAnswersAux state (i + 1) rest

/-- The `answers` list stored in `comprehensive_answer_set` by
`_AggregateAnswersAgent`.  The lookup uses `dict.get`, so a missing key
yields `none` and the question is skipped; nothing is raised. -/
def aggregateAnswers {α : Type} (questions : List String)
    (state : String → Option α) : List (String × α) :=
  aggregateAnswersAux state 1 questions

theorem aggregateAnswersAux_eq {α : Type} (state : String → Option α)
    (i : Nat) (qs : List String) :
    aggregateAnswersAux state i qs =
      (qs.enumFrom i).filterMap
        (fun p => (state (answerKey p.1)).map (fun a => (p.2, a))) := by
  induction qs generalizing i with
  | nil => simp [aggregateAnswersAux]
  | cons q rest ih =>
    rw [aggregateAnswersAux, List.enumFrom_cons, List.filterMap_cons]
    cases h : state (answerKey i) with
    | none => simp [h, ih]
    | some a => simp [h, ih]

/-- C3: the aggregation step is total (no lookup ever raises) and
`comprehensive_answer_set.answers` holds exactly the
`(question, answer)` pairs of the questions whose key
`research_answer_i` is present in the session state, in the original
question order (question `i` counted from 1). -/
theorem aggregateAnswers_correct {α : Type} (questions : List String)
    (state : String → Option α) :
    aggregateAnswers questions state =
      (questions.enumFrom 1).filterMap
        (fun p => (state (answerKey p.1)).map (fun a => (p.2, a))) :=
  aggregateAnswersAux_eq state 1 questions

/- ### Tool call limits
(`single_question_research_agent.py`, `create_enforce_tool_call_limits_callback`)

The callback counts calls per cache key `f"{agent_name}_{tool_name}_calls"`;
within one worker the agent name is fixed, so the counters are keyed by
tool name here.  The counter map is the `cache` dict passed explicitly. -/

/-- The module-level `tool_max_calls` dict together with the
`.get(tool_name, 0)` default used by the callback. -/
def tool_max_calls (tool : String) : Nat :=
  if tool = "search_tool" then 2
  else if tool = "scrape_tool" then 1
  else 0

/-- Error dict `{"status": "error", "message": f"{tool_name} call limit
reached"}`. -/
def limitErr (tool : String) : ToolError :=
  ⟨"error", tool ++ " call limit reached"⟩

/-- One invocation of `enforce_tool_call_limits`: when the counter has
reached the maximum the call is blocked (the dict is returned and the
counter left alone), otherwise the counter is incremented and `None` is
returned so the tool executes. -/
def enforce_tool_call_limits (counts : String → Nat) (tool : String) :
    Option ToolError × (String → Nat) :=
  let n := counts tool
  if tool_max_calls tool ≤ n then
    (some (limitErr tool), counts)
  else
    (none, fun t => if t = tool then n + 1 else counts t)

/-- Callback results for a sequence of attempted tool calls, threading the
counter state. -/
def limitRunFrom (counts : String → Nat) :
    List String → List (Option ToolError)
  | [] => []
  | t :: rest =>
    let st := enforce_tool_call_limits counts t
    st.1 :: limitRunFrom st.2 rest

/-- Counter state after a sequence of attempted tool calls. -/
def limitCountsFrom (counts : String → Nat) :
    List String → (String → Nat)
  | [] => counts
  | t :: rest => limitCountsFrom (enforce_tool_call_limits counts t).2 rest

/-- Callback results for a worker, starting from the empty cache. -/
def limitRun (calls : List String) : List (Option ToolError) :=
  limitRunFrom (fun _ => 0) calls

/-- Counter state of a worker after a sequence of attempted calls. -/
def limitCounts (calls : List String) : String → Nat :=
  limitCountsFrom (fun _ => 0) calls

/-- Number of calls to `tool` that the callback let execute (result
`none`). -/
def executedCalls (calls : List String) (tool : String) : Nat :=
  ((limitRun calls).zip calls).countP
    (fun p => decide (p.1 = none ∧ p.2 = tool))

theorem limitRunFrom_length (counts : String → Nat) (calls : List String) :
    (limitRunFrom counts calls).length = calls.length := by
  induction calls generalizing counts with
  | nil => rfl
  | cons t rest ih => simp [limitRunFrom, ih]

theorem limitCountsFrom_le (counts : String → Nat) (calls : List String)
    (tool : String) (h : counts tool ≤ tool_max_calls tool) :
    limitCountsFrom counts calls tool ≤ tool_max_calls tool := by
  induction calls generalizing counts with
  | nil => exact h
  | cons t rest ih =>
    rw [limitCountsFrom]
    apply ih
    unfold enforce_tool_call_limits
    by_cases hmax : tool_max_calls t ≤ counts t
    · simpa [hmax] using h
    · by_cases ht : tool = t
      · subst ht; simp [hmax]; omega
      · simpa [hmax, ht] using h

theorem limitCountsFrom_executed (counts : String → Nat)
    (calls : List String) (tool : String) :
    limitCountsFrom counts calls tool =
      counts tool +
        ((limitRunFrom counts calls).zip calls).countP
          (fun p => decide (p.1 = none ∧ p.2 = tool)) := by
  induction calls generalizing counts with
  | nil => simp [limitCountsFrom, limitRunFrom]
  | cons t rest ih =>
    rw [limitCountsFrom, limitRunFrom]
    unfold enforce_tool_call_limits
    by_cases hmax : tool_max_calls t ≤ counts t
    · simp only [hmax, if_pos]
      rw [ih]
      simp [List.countP_cons]
    · simp only [hmax, if_neg, not_false_iff]
      rw [ih]
      by_cases ht : t = tool
      · subst ht
        simp [List.countP_cons]
        omega
      · have ht2 : tool = t ↔ False := by simp [Ne.symm ht]
        simp [List.countP_cons, ht, ht2]

theorem limitRunFrom_blocked (counts : String → Nat) (calls : List String)
    (k : Nat) (hk : k < calls.length)
    (hmax : tool_max_calls (calls.get ⟨k, hk⟩) ≤
      limitCountsFrom counts (calls.take k) (calls.get ⟨k, hk⟩)) :
    (limitRunFrom counts calls).getD k none =
      some (limitErr (calls.get ⟨k, hk⟩)) := by
  induction calls generalizing counts k with
  | nil => simp at hk
  | cons t rest ih =>
    cases k with
    | zero =>
      simp only [List.take_zero, limitCountsFrom, List.get] at hmax
      simp [limitRunFrom, enforce_tool_call_limits, hmax]
    | succ k =>
      simp only [List.take_succ_cons, limitCountsFrom, List.get] at hmax
      rw [limitRunFrom]
      simpa using ih _ k (by simpa using hk) hmax

/-- C2: within one worker (a) at most `tool_max_calls` calls of each tool
are ever let through to execute — 2 for `search_tool`, 1 for
`scrape_tool` — and (b) any attempted call made when the tool's counter
has already reached its maximum is blocked and the callback returns
`{"status": "error", "message": f"{tool_name} call limit reached"}`. -/
theorem enforce_tool_call_limits_correct (calls : List String) :
    tool_max_calls "search_tool" = 2 ∧
    tool_max_calls "scrape_tool" = 1 ∧
    (∀ tool, executedCalls calls tool ≤ tool_max_calls tool) ∧
    (∀ k, (hk : k < calls.length) →
      tool_max_calls (calls.get ⟨k, hk⟩) ≤
        limitCounts (calls.take k) (calls.get ⟨k, hk⟩) →
      (limitRun calls).getD k none =
        some (limitErr (calls.get ⟨k, hk⟩))) := by
  refine ⟨rfl, rfl, fun tool => ?_, fun k hk hmax => ?_⟩
  · have h := limitCountsFrom_executed (fun _ => 0) calls tool
    have h2 := limitCountsFrom_le (fun _ => 0) calls tool (by simp)
    unfold executedCalls limitRun
    omega
  · exact limitRunFrom_blocked (fun _ => 0) calls k hk hmax

/-- Witness for C2: after two executed `search_tool` calls the third is
blocked with the limit error dict, and the executed count stays at 2. -/
theorem enforce_tool_call_limits_correct_witness :
    executedCalls ["search_tool", "search_tool", "search_tool"]
        "search_tool" ≤ 2 ∧
    (limitRun ["search_tool", "search_tool", "search_tool"]).getD 2 none =
      some ⟨"error", "search_tool call limit reached"⟩ :=
  ⟨(enforce_tool_call_limits_correct _).2.2.1 "search_tool",
    (enforce_tool_call_limits_correct
      ["search_tool", "search_tool", "search_tool"]).2.2.2 2 (by decide)
      (by decide)⟩

/- ### Query deduplication
(`single_question_research_agent.py`, `create_enforce_query_deduplication_callback`)

The callback embeds the new `search_tool` query, compares it against the
embeddings cached under `search_tool_queries_embeddings`, appends the new
embedding to the cache, and returns the error dict when any cosine
similarity reaches the threshold.  The remote embedding service and the
cosine similarity computation are opaque external calls; they enter the
model as parameters `embOf : String → E` and `sim : E → E → ℚ` (the
float comparison `similarity >= 0.85` becomes an exact comparison with
the rational `85/100`).  The model covers the successful path of the
`try` block; on an embedding-service exception the real callback logs
and lets the query through ("best-effort" in the spec's words). -/

/-- Module-level constant `COSINE_SIMILARITY_THRESHOLD = 0.85`. -/
def COSINE_SIMILARITY_THRESHOLD : ℚ := 85 / 100

/-- Error dict returned for a duplicate query. -/
def dedupErr : ToolError :=
  ⟨"error", "Query is too similar to a previous query"⟩

/-- One invocation of `enforce_query_deduplication` on a `search_tool`
call: empty queries are let through untouched (`if not query: return
None`); otherwise the query embedding is checked against every cached
previous embedding and appended to the cache, and the call is rejected
iff some similarity reaches the threshold. -/
def enforce_query_deduplication {E : Type} (sim : E → E → ℚ)
    (embOf : String → E) (cache : List E) (q : String) :
    Option ToolError × List E :=
  if q = "" then
    (none, cache)
  else
    let e := embOf q
    if cache.isEmpty then
      (none, [e])
    else
      let isDup := cache.any (fun p => COSINE_SIMILARITY_THRESHOLD ≤ sim e p)
      (if isDup then some dedupErr else none, cache ++ [e])

/-- Callback results for a sequence of search queries, threading the
embedding cache. -/
def dedupRunFrom {E : Type} (sim : E → E → ℚ) (embOf : String → E)
    (cache : List E) : List String → List (Option ToolError)
  | [] => []
  | q :: rest =>
    let st := enforce_query_deduplication sim embOf cache q
    st.1 :: dedupRunFrom sim embOf st.2 rest

/-- Callback results for one worker, starting from the empty cache. -/
def dedupRun {E : Type} (sim : E → E → ℚ) (embOf : String → E)
    (queries : List String) : List (Option ToolError) :=
  dedupRunFrom sim embOf [] queries

theorem dedup_cache_after {E : Type} (sim : E → E → ℚ)
    (embOf : String → E) (cache : List E) (q : String) :
    (enforce_query_deduplication sim embOf cache q).2 =
      if q = "" then cache else cache ++ [embOf q] := by
  unfold enforce_query_deduplication
  by_cases hq : q = ""
  · simp [hq]
  · by_cases hc : cache.isEmpty
    · have : cache = [] := List.isEmpty_iff.mp hc
      simp [hq, hc, this]
    · simp [hq, hc]

theorem dedupRunFrom_getD {E : Type} (sim : E → E → ℚ)
    (embOf : String → E) (cache : List E) (queries : List String)
    (j : Nat) (hj : j < queries.length) :
    (dedupRunFrom sim embOf cache queries).getD j none =
      (enforce_query_deduplication sim embOf
        (cache ++ ((queries.take j).filter (fun q => !(q == ""))).map embOf)
        (queries.get ⟨j, hj⟩)).1 := by
  induction queries generalizing cache j with
  | nil => simp at hj
  | cons q rest ih =>
    cases j with
    | zero => simp [dedupRunFrom]
    | succ j =>
      rw [dedupRunFrom]
      have hrec := ih (enforce_query_deduplication sim embOf cache q).2 j
        (by simpa using hj)
      by_cases hq : q = ""
      · simpa [dedup_cache_after, hq] using hrec
      · have hq2 : (q == "") = false := by
          simpa using hq
        simpa [dedup_cache_after, hq, hq2, List.append_assoc] using hrec

theorem dedup_result_of_mem {E : Type} (sim : E → E → ℚ)
    (embOf : String → E) (cache : List E) (q : String) (hq : q ≠ "")
    (p : E) (hp : p ∈ cache)
    (hsim : COSINE_SIMILARITY_THRESHOLD ≤ sim (embOf q) p) :
    (enforce_query_deduplication sim embOf cache q).1 = some dedupErr := by
  unfold enforce_query_deduplication
  have hnil : cache ≠ [] := List.ne_nil_of_mem hp
  have hne : cache.isEmpty = false := by
    cases hcase : cache.isEmpty
    · rfl
    · exact absurd (List.isEmpty_iff.mp hcase) hnil
  have hany : cache.any
      (fun x => decide (COSINE_SIMILARITY_THRESHOLD ≤ sim (embOf q) x)) =
      true :=
    List.any_eq_true.mpr ⟨p, hp, decide_eq_true hsim⟩
  simp [hq, hne, hany]

/-- C1: within one worker, if the `i`-th and `j`-th search queries
(`i < j`, both non-empty, so both actually reach the embedding check)
have embedding cosine similarity at least 0.85, then the later query is
rejected: the callback returns
`{"status": "error", "message": "Query is too similar to a previous
query"}` before the tool executes, so the two queries are never both let
through. -/
theorem dedup_rejects_similar {E : Type} (sim : E → E → ℚ)
    (embOf : String → E) (queries : List String) (i j : Nat)
    (hi : i < queries.length) (hj : j < queries.length) (hij : i < j)
    (hqi : queries.get ⟨i, hi⟩ ≠ "") (hqj : queries.get ⟨j, hj⟩ ≠ "")
    (hsim : COSINE_SIMILARITY_THRESHOLD ≤
      sim (embOf (queries.get ⟨j, hj⟩)) (embOf (queries.get ⟨i, hi⟩))) :
    (dedupRun sim embOf queries).getD j none = some dedupErr := by
  rw [dedupRun, dedupRunFrom_getD sim embOf [] queries j hj]
  have hmemTake : queries.get ⟨i, hi⟩ ∈ queries.take j := by
    have h1 : i < (queries.take j).length := by
      simp [List.length_take]; omega
    have h2 : (queries.take j).get ⟨i, h1⟩ = queries.get ⟨i, hi⟩ := by
      simp
    rw [← h2]
    exact List.get_mem _ _ h1
  have hmemF : queries.get ⟨i, hi⟩ ∈
      (queries.take j).filter (fun q => !(q == "")) :=
    List.mem_filter.mpr ⟨hmemTake, by simpa using hqi⟩
  have hmemE : embOf (queries.get ⟨i, hi⟩) ∈
      ((queries.take j).filter (fun q => !(q == ""))).map embOf :=
    List.mem_map_of_mem embOf hmemF
  rw [List.nil_append]
  exact dedup_result_of_mem sim embOf _ _ hqj _ hmemE hsim

/-- Witness for C1: with a two-point embedding space where both queries
embed to the same point of similarity 1, the second of two distinct
queries is rejected with the duplicate-query error dict. -/
theorem dedup_rejects_similar_witness :
    (dedupRun (E := Nat) (fun _ _ => 1) (fun q => q.length)
        ["alpha query", "beta query"]).getD 1 none = some dedupErr :=
  dedup_rejects_similar (fun _ _ => 1) (fun q => q.length)
    ["alpha query", "beta query"] 0 1 (by decide) (by decide) (by decide)
    (by decide) (by decide)
    (by rw [COSINE_SIMILARITY_THRESHOLD]; norm_num)

/- ### `scrape_tool` (core/tools.py, lines 71-126)

`_scrape_single_website` is an opaque remote call that either returns the
scraped markdown (status `"success"`) or catches every exception and
returns status `"error"` with empty content; it is modelled by
`fetch : String → Option String` (`some content` on success).  Tool
responses are dicts whose `combined_content` is a string here, while the
after-tool filter callback below probes for a dict value, so the field is
modelled by a small value type. -/

/-- Value stored under `combined_content` in a tool response: the real
`scrape_tool` stores a string; the filter callback checks for a dict. -/
inductive ContentVal where
  | str (s : String)
  | cdict (entries : List (String × String))
deriving DecidableEq, Repr

/-- Tool response dict `{"status": ..., "combined_content": ...}`. -/
structure ToolResponse where
  status : String
  combined_content : ContentVal
deriving DecidableEq, Repr

/-- Header the tool puts before each successful scrape:
`f"# Content from {url}\n\n{content}\n\n---\n"`. -/
def headerFor (url content : String) : String :=
  "# Content from " ++ url ++ "\n\n" ++ content ++ "\n\n---\n"

/-- Truthiness of `content.strip()` for a Lean `String`. -/
def stripTruthyS (s : String) : Bool := s.data.any (fun c => !pyIsSpace c)

/-- `scrape_tool(urls)`: empty input yields the error response; otherwise
every URL is scraped (failures caught inside `_scrape_single_website`),
the successful results are kept, and those whose content has a
non-whitespace character are joined with their headers by `"\n"`. -/
def scrape_tool (fetch : String → Option String) (urls : List String) :
    ToolResponse :=
  if urls.isEmpty then
    ⟨"error", .str ""⟩
  else
    let results := urls.map (fun u => (u, fetch u))
    let successful := results.filter (fun r => r.2.isSome)
    let contentParts := successful.filterMap
      (fun r => r.2.bind
        (fun c => if stripTruthyS c then some (headerFor r.1 c) else none))
    ⟨if successful.isEmpty then "error" else "success",
      .str (if successful.isEmpty then ""
        else String.intercalate "\n" contentParts)⟩

theorem scrape_status_iff (fetch : String → Option String)
    (urls : List String) :
    (((urls.map (fun u => (u, fetch u))).filter
        (fun r => r.2.isSome)).isEmpty = false) ↔
      ∃ u ∈ urls, (fetch u).isSome := by
  induction urls with
  | nil => simp
  | cons u rest ih =>
    cases h : fetch u with
    | none => simp [h, ih]
    | some c => simp [h]

theorem scrape_parts_eq (fetch : String → Option String)
    (urls : List String) :
    ((urls.map (fun u => (u, fetch u))).filter
        (fun r => r.2.isSome)).filterMap
      (fun r => r.2.bind
        (fun c => if stripTruthyS c then some (headerFor r.1 c)
          else none)) =
      urls.filterMap
        (fun u => (fetch u).bind
          (fun c => if stripTruthyS c then some (headerFor u c)
            else none)) := by
  induction urls with
  | nil => rfl
  | cons u rest ih =>
    cases h : fetch u with
    | none => simp [h, ih]
    | some c => simp [h, ih, List.filterMap_cons]

/-- C9 (amended): `scrape_tool` returns
`{"status": "error", "combined_content": ""}` on an empty URL list;
otherwise the status is `"success"` iff at least one URL scraped
successfully, and the combined content joins, in URL order, exactly the
successful scrape contents containing a non-whitespace character, each
prefixed by its `# Content from <url>` header; failed scrapes never
abort the call and are omitted. -/
theorem scrape_tool_correct (fetch : String → Option String)
    (urls : List String) :
    (urls = [] → scrape_tool fetch urls = ⟨"error", .str ""⟩) ∧
    (urls ≠ [] →
      ((scrape_tool fetch urls).status = "success" ↔
        ∃ u ∈ urls, (fetch u).isSome) ∧
      (scrape_tool fetch urls).combined_content =
        .str (String.intercalate "\n"
          (urls.filterMap
            (fun u => (fetch u).bind
              (fun c => if stripTruthyS c then some (headerFor u c)
                else none))))) := by
  refine ⟨fun he => ?_, fun hne => ?_⟩
  · simp [scrape_tool, he]
  · have hie : urls.isEmpty = false := by
      cases hcase : urls.isEmpty
      · rfl
      · exact absurd (List.isEmpty_iff.mp hcase) hne
    refine ⟨?_, ?_⟩
    · rw [scrape_tool]
      simp only [hie, Bool.false_eq_true, if_false]
      cases hcase : ((urls.map (fun u => (u, fetch u))).filter
          (fun r => r.2.isSome)).isEmpty
      · rw [if_neg (by simp [hcase])]
        simp only [true_iff]
        exact (scrape_status_iff fetch urls).mp hcase
      · rw [if_pos (by simp [hcase])]
        constructor
        · intro h; exact absurd h (by decide)
        · intro h
          have := (scrape_status_iff fetch urls).mpr h
          rw [hcase] at this
          exact absurd this (by decide)
    · rw [scrape_tool]
      simp only [hie, Bool.false_eq_true, if_false]
      cases hcase : ((urls.map (fun u => (u, fetch u))).filter
          (fun r => r.2.isSome)).isEmpty
      · rw [if_neg (by simp [hcase]), scrape_parts_eq]
      · rw [if_pos (by simp [hcase])]
        have hnil : (urls.map (fun u => (u, fetch u))).filter
            (fun r => r.2.isSome) = [] := List.isEmpty_iff.mp hcase
        have := scrape_parts_eq fetch urls
        rw [hnil] at this
        rw [← this]
        rfl

/-- Witness for C9 at one successful and one failed URL: status is
`"success"` and the combined content is the successful header block. -/
theorem scrape_tool_correct_witness :
    (scrape_tool
        (fun u => if u = "https://a" then some "body" else none)
        ["https://a", "https://b"]).status = "success" ∧
      (scrape_tool
        (fun u => if u = "https://a" then some "body" else none)
        ["https://a", "https://b"]).combined_content =
        .str ("# Content from https://a\n\nbody\n\n---\n") :=
  ⟨((scrape_tool_correct _ _).2 (by decide)).1.mpr
      ⟨"https://a", by decide, by decide⟩,
    by
      rw [((scrape_tool_correct
        (fun u => if u = "https://a" then some "body" else none)
        ["https://a", "https://b"]).2 (by decide)).2]
      decide⟩

/-- Claim C9 as literally stated reads "the successful, non-empty scrape
contents": the concatenation keeping every successful content that is a
non-empty string. -/
def scrapeCombinedClaim (fetch : String → Option String)
    (urls : List String) : String :=
  String.intercalate "\n"
    (urls.filterMap
      (fun u => (fetch u).bind
        (fun c => if c ≠ "" then some (headerFor u c) else none)))

/-- C9 counterexample: a successful scrape whose content is the non-empty
whitespace string `" "` is dropped by the code (`if content.strip()`),
but the claim's "non-empty" reading keeps it. -/
theorem scrape_tool_claim_counterexample :
    (scrape_tool (fun _ => some " ") ["https://a"]).combined_content =
        .str "" ∧
      scrapeCombinedClaim (fun _ => some " ") ["https://a"] =
        "# Content from https://a\n\n \n\n---\n" ∧
      (scrape_tool (fun _ => some " ") ["https://a"]).combined_content ≠
        .str (scrapeCombinedClaim (fun _ => some " ") ["https://a"]) := by
  refine ⟨?_, ?_, ?_⟩ <;> decide

/- ### After-tool callback composition
(`single_question_research_agent.py`, `create_store_search_urls_callback`,
`create_filter_scraped_content_callback`, `compose_after_tool_callbacks`)

`store_search_urls` only records a URL-to-query mapping in the cache (a
side effect on the cache dict) and returns `None` for every tool and
response, so its effect on the response is the constant `none`.
`filter_scraped_content` first checks the tool name and that
`combined_content` is a truthy dict; everything after that check (the
embedding calls and per-URL chunk filtering) can only run for dict
contents and is abstracted as `deepFilter`. -/

/-- Response transformation of `store_search_urls`: it never replaces the
tool response (its only action is the cache side effect). -/
def store_search_urls (tool : String) (_resp : ToolResponse) :
    Option ToolResponse :=
  if tool ≠ "search_tool" then none
  else none

/-- Response transformation of `filter_scraped_content`: `None` unless
the tool is `scrape_tool` and `combined_content` is a non-empty dict;
only then does the similarity-filtering body (`deepFilter`) run. -/
def filter_scraped_content
    (deepFilter : List (String × String) → Option ToolResponse)
    (tool : String) (resp : ToolResponse) : Option ToolResponse :=
  if tool ≠ "scrape_tool" then none
  else
    match resp.combined_content with
    | .str _ => none
    | .cdict entries => if entries.isEmpty then none else deepFilter entries

/-- `compose_after_tool_callbacks`: thread the response through the
callbacks, replacing it whenever a callback returns a value, and report
`None` when the final response equals the original. -/
def compose_after_tool_callbacks
    (cbs : List (ToolResponse → Option ToolResponse))
    (resp : ToolResponse) : Option ToolResponse :=
  let final := cbs.foldl (fun cur cb => (cb cur).getD cur) resp
  if final = resp then none else some final

/-- The combined after-tool callback built by
`create_combined_after_tool_callback`: store URL mappings, then filter
scraped content. -/
def create_combined_after_tool_callback
    (deepFilter : List (String × String) → Option ToolResponse)
    (tool : String) (resp : ToolResponse) : Option ToolResponse :=
  compose_after_tool_callbacks
    [store_search_urls tool, filter_scraped_content deepFilter tool] resp

/-- C10: on any response whose `combined_content` is a string — in
particular on every response actually produced by `scrape_tool` — the
combined after-tool callback leaves the response unchanged and returns
`None`, whatever the similarity-filtering body would do. -/
theorem after_callback_preserves_scrape_output
    (deepFilter : List (String × String) → Option ToolResponse) :
    (∀ status s,
      create_combined_after_tool_callback deepFilter "scrape_tool"
        ⟨status, .str s⟩ = none) ∧
    (∀ (fetch : String → Option String) (urls : List String),
      create_combined_after_tool_callback deepFilter "scrape_tool"
        (scrape_tool fetch urls) = none) := by
  have hstr : ∀ status s,
      create_combined_after_tool_callback deepFilter "scrape_tool"
        ⟨status, .str s⟩ = none := by
    intro status s
    simp [create_combined_after_tool_callback,
      compose_after_tool_callbacks, store_search_urls,
      filter_scraped_content]
  refine ⟨hstr, fun fetch urls => ?_⟩
  rw [scrape_tool]
  by_cases he : urls.isEmpty
  · rw [if_pos he]
    exact hstr _ _
  · rw [if_neg he]
    exact hstr _ _

/- ### Report transformation
(`agents/synthesis/report_transformation_agent.py` and `core/models.py`)

The pydantic schemas become Lean structures.  A pydantic constructor
call is modelled by a kwargs record with one `Option` per field and a
validator: a `none` for a field without a default raises
`ValidationError` (`Field required`), exactly as
`TransformationOutput(...)` does in pydantic when a required field is
not passed.  An argument of the wrong model class
(`ReferenceOutput` passed where `TransformationReferenceOutput` is
declared) is likewise rejected by pydantic, which accepts only dicts or
instances of the declared class. -/

/-- `ReferenceOutput` of core/models.py (fields used by the
transformation). -/
structure ReferenceOutput where
  is_supportive : Bool
  citation : String
  url : String
deriving DecidableEq, Repr

/-- `SectionItemOutput` of core/models.py. -/
structure SectionItemOutput where
  claim_id : String
  claim_text : String
  argumentative_explanation : String
deriving DecidableEq, Repr

/-- `EvidenceAdjudicatorOutput` of core/models.py; `factuality` is a
0.0-1.0 float modelled as a rational. -/
structure EvidenceAdjudicatorOutput where
  verdict : String
  factuality : ℚ
  headline_summary_md : String
  what_was_true : List SectionItemOutput
  what_was_false : List SectionItemOutput
  what_could_not_be_verified : List SectionItemOutput
  references : List ReferenceOutput
deriving DecidableEq, Repr

/-- `TransformationReferenceOutput` of core/models.py: note the field is
`key_quote`, not `citation`. -/
structure TransformationReferenceOutput where
  is_supportive : Bool
  key_quote : String
  url : String
deriving DecidableEq, Repr

/-- `TransformationOutput` of core/models.py (lines 238-254): all six
fields are required (none has a default). -/
structure TransformationOutput where
  verdict : String
  factuality : ℚ
  reason : String
  reason_summary : String
  score_justification : String
  references : List TransformationReferenceOutput
deriving DecidableEq, Repr

/-- Python `str.strip()`: drop leading and trailing whitespace. -/
def pyStrip (s : String) : String :=
  ⟨((s.data.dropWhile pyIsSpace).reverse.dropWhile pyIsSpace).reverse⟩

/-- Lines contributed by one section of `_generate_reason_markdown`: the
section title, then `- {claim_text}` and `  {argumentative_explanation}`
per item, then an empty line; nothing when the section is empty. -/
def sectionLines (title : String) (items : List SectionItemOutput) :
    List String :=
  if items.isEmpty then []
  else
    title ::
      (items.flatMap (fun it =>
        ["- " ++ it.claim_text, "  " ++ it.argumentative_explanation])
        ++ [""])

/-- `_generate_reason_markdown`: join the True/False/Unverified section
lines with newlines and strip the result. -/
def generate_reason_markdown (r : EvidenceAdjudicatorOutput) : String :=
  pyStrip (String.intercalate "\n"
    (sectionLines "## True" r.what_was_true ++
      sectionLines "## False" r.what_was_false ++
      sectionLines "## Unverified" r.what_could_not_be_verified))

/-- Rendering of `f"{factuality:.2f}"` for the nonnegative scores the
schema allows, by rounding to hundredths. -/
def fmtConf (q : ℚ) : String :=
  let n := (round (q * 100)).toNat
  toString (n / 100) ++ "." ++
    (if n % 100 < 10 then "0" ++ toString (n % 100) else toString (n % 100))

/-- Value passed in the `references` list of the constructor call: the
code passes `ReferenceOutput` instances where the schema declares
`TransformationReferenceOutput`. -/
inductive RefArg where
  | fromReference (r : ReferenceOutput)
  | fromTransformationReference (t : TransformationReferenceOutput)
deriving DecidableEq, Repr

/-- Pydantic validation of one `references` item against
`TransformationReferenceOutput`: an instance of the declared class is
accepted; an instance of the unrelated class `ReferenceOutput` is not a
dict and not an instance, so validation fails. -/
def validateRefArg : RefArg → Except String TransformationReferenceOutput
  | .fromTransformationReference t => .ok t
  | .fromReference _ =>
      .error "Input should be a valid instance of TransformationReferenceOutput"

/-- Keyword arguments of a `TransformationOutput(...)` constructor call;
a field not passed stays `none`. -/
structure TransformationKwargs where
  verdict : Option String := none
  factuality : Option ℚ := none
  reason : Option String := none
  reason_summary : Option String := none
  score_justification : Option String := none
  references : Option (List RefArg) := none

/-- Pydantic validation for `TransformationOutput`: every field is
required, so a missing keyword raises `ValidationError`. -/
def validateTransformationOutput (kw : TransformationKwargs) :
    Except String TransformationOutput := do
  let v ← match kw.verdict with
    | some v => Except.ok v
    | none => Except.error "Field required: verdict"
  let f ← match kw.factuality with
    | some f => Except.ok f
    | none => Except.error "Field required: factuality"
  let re ← match kw.reason with
    | some re => Except.ok re
    | none => Except.error "Field required: reason"
  let rs ← match kw.reason_summary with
    | some rs => Except.ok rs
    | none => Except.error "Field required: reason_summary"
  let sj ← match kw.score_justification with
    | some sj => Except.ok sj
    | none => Except.error "Field required: score_justification"
  let refsRaw ← match kw.references with
    | some rl => Except.ok rl
    | none => Except.error "Field required: references"
  let refs ← refsRaw.mapM validateRefArg
  Except.ok ⟨v, f, re, rs, sj, refs⟩

/-- `transform_adjudicated_report`: the constructor call at lines 38-44
passes `factuality`, `reason`, `reason_summary`, `score_justification`
and `references` — but not `verdict`. -/
def transform_adjudicated_report (r : EvidenceAdjudicatorOutput) :
    Except String TransformationOutput :=
  let reason_markdown := generate_reason_markdown r
  validateTransformationOutput
    { factuality := some r.factuality
      reason := some reason_markdown
      reason_summary := some r.headline_summary_md
      score_justification := some ("Overall verdict: " ++ r.verdict ++
        " with confidence " ++ fmtConf r.factuality)
      references := some (r.references.map RefArg.fromReference) }

/-- C6 (code bug): `transform_adjudicated_report` never returns a
transformed report — the `TransformationOutput(...)` call omits the
required `verdict` field, so pydantic raises `ValidationError` on every
input instead of performing the claimed pure reshaping. -/
theorem transform_adjudicated_report_raises
    (r : EvidenceAdjudicatorOutput) :
    transform_adjudicated_report r =
      Except.error "Field required: verdict" := rfl

/- ### Agent trees and traces
(`agents/fact_check_orchestrator.py` and
`agents/research/research_orchestrator_agent.py`)

The ADK combinators are modelled by a tree: a `seq` node
(`SequentialAgent`) runs its children in order, so its trace is the
concatenation of the children's traces; a `par` node (`ParallelAgent`)
runs its children concurrently, so its trace is an interleaving; an
`atomic` node is a leaf agent (an `LlmAgent` or custom `BaseAgent`) that
emits any finite sequence of events whose authors satisfy its predicate.
Events are modelled by their author name. -/

/-- Execution tree built from ADK agents. -/
inductive AgentTree where
  | atomic (allowed : String → Prop)
  | seq (name : String) (subs : List AgentTree)
  | par (name : String) (subs : List AgentTree)

/-- Leaf agent with the given name: every event it emits carries that
author. -/
def named (n : String) : AgentTree := .atomic (fun e => e = n)

/-- Interleaving of two event sequences, preserving the order within
each. -/
inductive Interleave : List String → List String → List String → Prop where
  | nil : Interleave [] [] []
  | left {x xs ys zs} : Interleave xs ys zs → Interleave (x :: xs) ys (x :: zs)
  | right {y xs ys zs} : Interleave xs ys zs → Interleave xs (y :: ys) (y :: zs)

theorem Interleave.nil_left (ys : List String) : Interleave [] ys ys := by
  induction ys with
  | nil => exact .nil
  | cons y ys ih => exact .right ih

theorem Interleave.append_list (xs ys : List String) :
    Interleave xs ys (xs ++ ys) := by
  induction xs with
  | nil => simpa using Interleave.nil_left ys
  | cons x xs ih => exact .left ih

/-- Possible event traces of an agent tree. -/
inductive Trace : AgentTree → List String → Prop where
  | atomic {P : String → Prop} {es : List String} :
      (∀ e ∈ es, P e) → Trace (.atomic P) es
  | seqNil {n : String} : Trace (.seq n []) []
  | seqCons {n : String} {a : AgentTree} {subs : List AgentTree}
      {ta ts : List String} :
      Trace a ta → Trace (.seq n subs) ts →
      Trace (.seq n (a :: subs)) (ta ++ ts)
  | parNil {n : String} : Trace (.par n []) []
  | parCons {n : String} {a : AgentTree} {subs : List AgentTree}
      {ta ts t : List String} :
      Trace a ta → Trace (.par n subs) ts → Interleave ta ts t →
      Trace (.par n (a :: subs)) t

theorem trace_seq_cons_inv {n : String} {a : AgentTree}
    {subs : List AgentTree} {t : List String}
    (h : Trace (.seq n (a :: subs)) t) :
    ∃ ta ts, t = ta ++ ts ∧ Trace a ta ∧ Trace (.seq n subs) ts := by
  cases h with
  | seqCons ha hs => exact ⟨_, _, rfl, ha, hs⟩

theorem trace_seq_nil_inv {n : String} {t : List String}
    (h : Trace (.seq n []) t) : t = [] := by
  cases h; rfl

theorem trace_atomic_inv {P : String → Prop} {t : List String}
    (h : Trace (.atomic P) t) : ∀ e ∈ t, P e := by
  cases h with
  | atomic hp => exact hp

/- ### Top-level orchestrator (`agents/fact_check_orchestrator.py`)

`fact_check_orchestrator = SequentialAgent(sub_agents=[analysis_stage,
research_stage, synthesis_stage])`, with the analysis and synthesis
stages themselves sequential.  The research stage is the custom
`ResearchOrchestratorAgent`, whose dynamically built body is an
arbitrary agent tree here. -/

/-- Stage 1: `AnalysisStage` — claim structuring then gap
identification. -/
def analysis_stage : AgentTree :=
  .seq "AnalysisStage"
    [named "ClaimStructuringAgent", named "GapIdentificationAgent"]

/-- Stage 3: `SynthesisStage` — evidence synthesis then adversarial
critique. -/
def synthesis_stage : AgentTree :=
  .seq "SynthesisStage"
    [named "EvidenceSynthesizerAgent", named "AdversarialCritiqueAgent"]

/-- The top-level `FactCheckOrchestrator`, parametric in the research
stage agent. -/
def fact_check_orchestrator (research_stage : AgentTree) : AgentTree :=
  .seq "FactCheckOrchestrator"
    [analysis_stage, research_stage, synthesis_stage]

/-- C7: every trace of the top-level orchestrator splits as claim
structuring events, then gap identification events, then a trace of the
research stage, then evidence synthesis events, then adversarial
critique events — whatever the research stage is.  So the analysis
stage (claim structuring then gap identification) always completes
before the research stage starts, and research completes before
synthesis starts; no other stage ordering is reachable. -/
theorem fact_check_orchestrator_staged (research_stage : AgentTree)
    (t : List String)
    (h : Trace (fact_check_orchestrator research_stage) t) :
    ∃ tc tg tr te ta,
      t = tc ++ tg ++ tr ++ te ++ ta ∧
      (∀ e ∈ tc, e = "ClaimStructuringAgent") ∧
      (∀ e ∈ tg, e = "GapIdentificationAgent") ∧
      Trace research_stage tr ∧
      (∀ e ∈ te, e = "EvidenceSynthesizerAgent") ∧
      (∀ e ∈ ta, e = "AdversarialCritiqueAgent") := by
  rcases trace_seq_cons_inv h with ⟨t1, rest1, rfl, h1, hrest1⟩
  rcases trace_seq_cons_inv hrest1 with ⟨tr, rest2, rfl, hr, hrest2⟩
  rcases trace_seq_cons_inv hrest2 with ⟨t3, rest3, rfl, h3, hrest3⟩
  have hnil : rest3 = [] := trace_seq_nil_inv hrest3
  subst hnil
  rcases trace_seq_cons_inv h1 with ⟨tc, restc, rfl, hc, hrestc⟩
  rcases trace_seq_cons_inv hrestc with ⟨tg, restg, rfl, hg, hrestg⟩
  have hnilg : restg = [] := trace_seq_nil_inv hrestg
  subst hnilg
  rcases trace_seq_cons_inv h3 with ⟨te, reste, rfl, he, hreste⟩
  rcases trace_seq_cons_inv hreste with ⟨ta, resta, rfl, ha, hresta⟩
  have hnila : resta = [] := trace_seq_nil_inv hresta
  subst hnila
  refine ⟨tc, tg, tr, te, ta, by simp, ?_, ?_, hr, ?_, ?_⟩
  · exact trace_atomic_inv hc
  · exact trace_atomic_inv hg
  · exact trace_atomic_inv he
  · exact trace_atomic_inv ha

/-- Witness for C7: a concrete five-event run, one event per leaf
agent, decomposes into the staged form. -/
theorem fact_check_orchestrator_staged_witness :
    ∃ tc tg tr te ta,
      (["ClaimStructuringAgent", "GapIdentificationAgent",
          "ResearchOrchestratorAgent", "EvidenceSynthesizerAgent",
          "AdversarialCritiqueAgent"] : List String) =
        tc ++ tg ++ tr ++ te ++ ta ∧
      (∀ e ∈ tc, e = "ClaimStructuringAgent") ∧
      (∀ e ∈ tg, e = "GapIdentificationAgent") ∧
      Trace (named "ResearchOrchestratorAgent") tr ∧
      (∀ e ∈ te, e = "EvidenceSynthesizerAgent") ∧
      (∀ e ∈ ta, e = "AdversarialCritiqueAgent") :=
  fact_check_orchestrator_staged (named "ResearchOrchestratorAgent") _
    (by
      show Trace _ (["ClaimStructuringAgent", "GapIdentificationAgent"] ++
        (["ResearchOrchestratorAgent"] ++
          (["EvidenceSynthesizerAgent", "AdversarialCritiqueAgent"] ++ [])))
      refine Trace.seqCons ?_ (Trace.seqCons ?_ (Trace.seqCons ?_
        Trace.seqNil))
      · show Trace _ (["ClaimStructuringAgent"] ++
          (["GapIdentificationAgent"] ++ []))
        refine Trace.seqCons ?_ (Trace.seqCons ?_ Trace.seqNil)
        · exact Trace.atomic (by intro e he; simpa using he)
        · exact Trace.atomic (by intro e he; simpa using he)
      · exact Trace.atomic (by intro e he; simpa using he)
      · show Trace _ (["EvidenceSynthesizerAgent"] ++
          (["AdversarialCritiqueAgent"] ++ []))
        refine Trace.seqCons ?_ (Trace.seqCons ?_ Trace.seqNil)
        · exact Trace.atomic (by intro e he; simpa using he)
        · exact Trace.atomic (by intro e he; simpa using he))

/- ### Research orchestration plan
(`research_orchestrator_agent.py`, `ResearchOrchestratorAgent._run_async_impl`,
lines 140-248)

When the gap-question list is non-empty, the orchestrator builds, for
`i, q in enumerate(questions, 1)`, a branch
`SequentialAgent(name=f"ResearchBranch_{i}", sub_agents=[SetQuestion_i,
single_question_research_agent.clone(), CopyAnswer_research_answer_i])`,
puts all branches into one
`ParallelAgent(name="ParallelResearch", sub_agents=branches)` and runs
that single parallel agent.  The cloned research agent is the `ra`
parameter below.  The branch trees carry the question only through the
1-based index; the question text itself is stored into session state by
the `SetQuestion_i` leaf. -/

/-- `GapQuestionOutput` of core/models.py (priority is the string
`"high"`, `"medium"` or `"low"`). -/
structure GapQuestionOutput where
  id : String
  question : String
  claim_id : String
  question_type : String
  priority : String
deriving DecidableEq, Repr

/-- Per-question branch `ResearchBranch_i`. -/
def researchBranch (ra : AgentTree) (i : Nat) : AgentTree :=
  .seq ("ResearchBranch_" ++ toString i)
    [named ("SetQuestion_" ++ toString i), ra,
      named ("CopyAnswer_research_answer_" ++ toString i)]

/-- Branch list built by the `for i, q in enumerate(questions, 1)`
loop. -/
def buildBranches (ra : AgentTree) : Nat → List String → List AgentTree
  | _, [] => []
  | i, _q :: rest => researchBranch ra i :: buildBranches ra (i + 1) rest

/-- The execution plan the orchestrator runs for a non-empty question
list: one `ParallelAgent` over all branches. -/
def buildResearchPlan (ra : AgentTree) (questions : List String) :
    AgentTree :=
  .par "ParallelResearch" (buildBranches ra 1 questions)

/-- The plan as built from the structured gap questions: the code keeps
only `item.question` of each `GapQuestionOutput`. -/
def researchPlanOfGapQuestions (ra : AgentTree)
    (gqs : List GapQuestionOutput) : AgentTree :=
  buildResearchPlan ra (gqs.map (fun g => g.question))

/-- Parallel batches of an execution plan: a `ParallelAgent` node is one
batch of concurrently running sub-agents. -/
def parallelBatches : AgentTree → List (List AgentTree)
  | .par _ subs => [subs]
  | _ => []

theorem buildBranches_length (ra : AgentTree) (i : Nat)
    (qs : List String) : (buildBranches ra i qs).length = qs.length := by
  induction qs generalizing i with
  | nil => rfl
  | cons q rest ih => simp [buildBranches, ih]

/-- C4 counterexample: for 6 questions the orchestrator creates a single
parallel batch holding all 6 branches, not `ceil(6/5) = 2` batches of at
most 5. -/
theorem research_plan_batch_count_counterexample :
    (parallelBatches (buildResearchPlan
        (named "UnifiedResearchAgent")
        ["q1", "q2", "q3", "q4", "q5", "q6"])).length = 1 ∧
      (6 + 5 - 1) / 5 = 2 ∧
      (parallelBatches (buildResearchPlan
        (named "UnifiedResearchAgent")
        ["q1", "q2", "q3", "q4", "q5", "q6"])).length ≠ (6 + 5 - 1) / 5 := by
  refine ⟨rfl, rfl, ?_⟩
  decide

/-- C4 (amended): the orchestrator does not split the questions into
batches of 5 (nor by priority): for every non-empty question list it
creates exactly one parallel batch, containing one branch per
question. -/
theorem research_plan_single_batch (ra : AgentTree) (qs : List String)
    (_h : qs ≠ []) :
    parallelBatches (buildResearchPlan ra qs) = [buildBranches ra 1 qs] ∧
      (parallelBatches (buildResearchPlan ra qs)).length = 1 ∧
      (buildBranches ra 1 qs).length = qs.length :=
  ⟨rfl, rfl, buildBranches_length ra 1 qs⟩

/-- Witness for C4's amended statement at a 6-question input. -/
theorem research_plan_single_batch_witness :
    parallelBatches (buildResearchPlan (named "UnifiedResearchAgent")
        ["q1", "q2", "q3", "q4", "q5", "q6"]) =
      [buildBranches (named "UnifiedResearchAgent") 1
        ["q1", "q2", "q3", "q4", "q5", "q6"]] ∧
      (parallelBatches (buildResearchPlan (named "UnifiedResearchAgent")
        ["q1", "q2", "q3", "q4", "q5", "q6"])).length = 1 ∧
      (buildBranches (named "UnifiedResearchAgent") 1
        ["q1", "q2", "q3", "q4", "q5", "q6"]).length =
        (["q1", "q2", "q3", "q4", "q5", "q6"] : List String).length :=
  research_plan_single_batch (named "UnifiedResearchAgent")
    ["q1", "q2", "q3", "q4", "q5", "q6"] (by decide)

/-- Two gap questions whose priorities arrive as low then high. -/
def gapQsPriorityDemo : List GapQuestionOutput :=
  [⟨"Q1", "low priority question", "C1", "temporal", "low"⟩,
    ⟨"Q2", "high priority question", "C2", "temporal", "high"⟩]

/-- An execution of the plan for `gapQsPriorityDemo` in which the branch
of the low-priority question runs to completion before the branch of the
high-priority question starts. -/
def tierDemoTrace : List String :=
  ["SetQuestion_1", "UnifiedResearchAgent", "CopyAnswer_research_answer_1",
    "SetQuestion_2", "UnifiedResearchAgent", "CopyAnswer_research_answer_2"]

/-- C5 counterexample: the plan built for a low-priority question listed
before a high-priority one admits a run where the low-priority branch
completes (its `CopyAnswer` event, position 2) before the high-priority
branch even starts (its `SetQuestion` event, position 3) — the code
never forms priority tiers, so "high executes before low" fails. -/
theorem research_plan_tier_order_counterexample :
    (gapQsPriorityDemo.get ⟨0, by decide⟩).priority = "low" ∧
      (gapQsPriorityDemo.get ⟨1, by decide⟩).priority = "high" ∧
      Trace (researchPlanOfGapQuestions (named "UnifiedResearchAgent")
        gapQsPriorityDemo) tierDemoTrace ∧
      tierDemoTrace.getD 2 "" = "CopyAnswer_research_answer_1" ∧
      tierDemoTrace.getD 3 "" = "SetQuestion_2" := by
  refine ⟨rfl, rfl, ?_, rfl, rfl⟩
  show Trace (.par "ParallelResearch"
    [researchBranch (named "UnifiedResearchAgent") 1,
      researchBranch (named "UnifiedResearchAgent") 2]) tierDemoTrace
  have hbr : ∀ i : Nat,
      Trace (researchBranch (named "UnifiedResearchAgent") i)
        ["SetQuestion_" ++ toString i, "UnifiedResearchAgent",
          "CopyAnswer_research_answer_" ++ toString i] := by
    intro i
    show Trace _ (["SetQuestion_" ++ toString i] ++
      (["UnifiedResearchAgent"] ++
        (["CopyAnswer_research_answer_" ++ toString i] ++ [])))
    refine Trace.seqCons ?_ (Trace.seqCons ?_ (Trace.seqCons ?_
      Trace.seqNil))
    · exact Trace.atomic (by intro e he; simpa using he)
    · exact Trace.atomic (by intro e he; simpa using he)
    · exact Trace.atomic (by intro e he; simpa using he)
  refine Trace.parCons (hbr 1) (Trace.parCons (hbr 2) Trace.parNil
    (Interleave.append_list _ [])) ?_
  have : tierDemoTrace =
      ["SetQuestion_1", "UnifiedResearchAgent",
        "CopyAnswer_research_answer_1"] ++
        (["SetQuestion_2", "UnifiedResearchAgent",
          "CopyAnswer_research_answer_2"] ++ []) := rfl
  rw [this]
  exact Interleave.append_list _ _

/-- C5 (amended): the orchestrator discards priorities — the execution
plan depends only on the question texts, so no tier ordering between
high, medium and low questions is enforced; all questions run in one
concurrent batch. -/
theorem research_plan_priority_independent (ra : AgentTree)
    (gqs : List GapQuestionOutput) (f : GapQuestionOutput → String) :
    researchPlanOfGapQuestions ra
        (gqs.map (fun g => { g with priority := f g })) =
      researchPlanOfGapQuestions ra gqs := by
  unfold researchPlanOfGapQuestions
  rw [List.map_map]
  rfl

end WalFactChecker
